import Mathlib

set_option maxRecDepth 8000
set_option maxHeartbeats 1000000

/-!
Verification of the Ferris MVP text-to-speech relay (server.js and the
second server variant) against its natural-language specification.

The JavaScript source is shallowly embedded: strings are `List Char`
(JavaScript code points), each regular-expression replacement of the
normalization pipeline becomes an executable scanner over `List Char`
that mirrors the deterministic matching behaviour of the concrete
pattern, and the HTTP handler / streaming relay become functions from a
model of the request (respectively of the provider's behaviour) to an
explicit outcome type whose constructors correspond to the code paths.
-/

/-! ## Character classes of the JavaScript regexes -/

/-- JavaScript `\s` (also the character class used by `String.prototype.trim`):
tab, LF, VT, FF, CR, space, NBSP, Ogham space mark, U+2000..U+200A,
line/paragraph separator, narrow NBSP, medium mathematical space,
ideographic space and BOM. -/
def isJsSpace (c : Char) : Bool :=
  c.toNat == 9 || c.toNat == 10 || c.toNat == 11 || c.toNat == 12 || c.toNat == 13 ||
  c.toNat == 32 || c.toNat == 0xA0 || c.toNat == 0x1680 ||
  (decide (0x2000 ≤ c.toNat) && decide (c.toNat ≤ 0x200A)) ||
  c.toNat == 0x2028 || c.toNat == 0x2029 || c.toNat == 0x202F ||
  c.toNat == 0x205F || c.toNat == 0x3000 || c.toNat == 0xFEFF

/-- JavaScript `\w`: ASCII letters, digits and underscore. -/
def isWordChar (c : Char) : Bool := c.isAlpha || c.isDigit || c == '_'

/-- ASCII lower-casing, the canonicalization applied by the `/i` regex flag
to the ASCII-only patterns occurring in the source. -/
def lowerAscii (c : Char) : Char :=
  if 65 ≤ c.toNat ∧ c.toNat ≤ 90 then Char.ofNat (c.toNat + 32) else c

/-- The class `[a-zA-Z]` of the minimal profile's final regex. -/
def isAsciiLetter (c : Char) : Bool :=
  (decide (97 ≤ c.toNat) && decide (c.toNat ≤ 122)) ||
  (decide (65 ≤ c.toNat) && decide (c.toNat ≤ 90))

/-! ## Generic left-to-right regex-replacement scanners

A matcher `f` receives the suffix starting at the current scan position
and, when the pattern matches there, returns the replacement together
with the remainder of the input after the matched portion.  `scanFirst`
mirrors a non-global `String.replace` (first match only); `scanAll`
mirrors a global one (scanning resumes after the matched portion, the
replacement is not rescanned).  `scanAll` is totalised by a fuel equal
to the input length, which is sufficient because every matcher below
consumes at least one character on success. -/

def scanAllF (f : List Char → Option (List Char × List Char)) :
    Nat → List Char → List Char
  | _, [] => []
  | 0, t => t
  | n + 1, c :: cs =>
    match f (c :: cs) with
    | some (repl, rest) => repl ++ scanAllF f n rest
    | none => c :: scanAllF f n cs

def scanAll (f : List Char → Option (List Char × List Char)) (t : List Char) :
    List Char :=
  scanAllF f t.length t

def scanFirst (f : List Char → Option (List Char × List Char)) :
    List Char → List Char
  | [] => []
  | c :: cs =>
    match f (c :: cs) with
    | some (repl, rest) => repl ++ rest
    | none => c :: scanFirst f cs

/-- Predicate `noMatchB f t`: the matcher `f` fails at every suffix of `t`,
i.e. the corresponding regex has no occurrence in `t`. -/
def noMatchB (f : List Char → Option (List Char × List Char)) : List Char → Bool
  | [] => (f []).isNone
  | c :: cs => (f (c :: cs)).isNone && noMatchB f cs

/-- Case-insensitive literal match: `pat` is given lower-case; on success
returns the remainder of `t` after the matched prefix. -/
def matchCI : List Char → List Char → Option (List Char)
  | [], t => some t
  | _ :: _, [] => none
  | p :: ps, c :: cs => if lowerAscii c = p then matchCI ps cs else none

/-- Matcher for a fixed literal pattern (the emoji replacement regexes). -/
def tryLit (pat repl t : List Char) : Option (List Char × List Char) :=
  if pat ≠ [] ∧ pat.isPrefixOf t then some (repl, t.drop pat.length) else none

def replaceLit (pat repl t : List Char) : List Char :=
  scanAll (tryLit pat repl) t

/-! ## The full normalization pipeline of server.js (`normalizeForTTS`) -/

namespace ServerJs

def cycleChar : Char := Char.ofNat 0x1F504
def chartChar : Char := Char.ofNat 0x1F4CA
def bedChar : Char := Char.ofNat 0x1F6CF
def vs16Char : Char := Char.ofNat 0xFE0F
def moneyChar : Char := Char.ofNat 0x1F4B0
def starChar : Char := Char.ofNat 0x2B50
def bulletChar : Char := Char.ofNat 0x2022

/-- Step 1, `/[*_\x60~]+/g → ""`: replacing every run of markdown delimiter
characters by the empty string removes exactly those characters. -/
def mdChars : List Char := ['*', '_', Char.ofNat 0x60, '~']

def stripMarkdown (t : List Char) : List Char :=
  t.filter (fun c => !(mdChars.contains c))

/-- Step 2: the five icon-replacement regexes, applied in source order; an
alternation `X️|X` is rendered as the two-character literal followed
by the bare one (the replacement strings contain neither character, so
sequential global replacement coincides with the alternation). -/
def iconReplace (t : List Char) : List Char :=
  replaceLit [starChar] " rated ".data
    (replaceLit [starChar, vs16Char] " rated ".data
      (replaceLit [moneyChar] " cost ".data
        (replaceLit [bedChar] " beds ".data
          (replaceLit [bedChar, vs16Char] " beds ".data
            (replaceLit [chartChar] " note: ".data
              (replaceLit [cycleChar] " alternatively, ".data t))))))

/-- Step 3 matcher, `/rated\s*(\d+(?:\.\d+)?)\s*\/(\d+)/i` (first match only):
the pattern is deterministic because `\s`, `\d` and the literals that
follow each greedy part are pairwise disjoint, so greedy maximal munch
needs no backtracking. -/
def tryRated (t : List Char) : Option (List Char × List Char) :=
  match matchCI "rated".data t with
  | none => none
  | some r1 =>
    let r2 := r1.dropWhile isJsSpace
    let d1 := r2.takeWhile Char.isDigit
    if d1 = [] then none
    else
      let r3 := r2.dropWhile Char.isDigit
      let fr :=
        match r3 with
        | c :: cs =>
          if c = '.' ∧ cs.takeWhile Char.isDigit ≠ [] then
            ('.' :: cs.takeWhile Char.isDigit, cs.dropWhile Char.isDigit)
          else ([], r3)
        | [] => ([], r3)
      match fr.2.dropWhile isJsSpace with
      | c :: cs =>
        if c = '/' ∧ cs.takeWhile Char.isDigit ≠ [] then
          some ("rated ".data ++ d1 ++ fr.1 ++ " out of ".data ++
                  cs.takeWhile Char.isDigit,
                cs.dropWhile Char.isDigit)
        else none
      | [] => none

/-- Step 3 continued, `/\((\d+)\s*reviews\)/i` (first match only),
replacement a space followed by `from <n> reviews`. -/
def tryReviews (t : List Char) : Option (List Char × List Char) :=
  match t with
  | c :: r1 =>
    if c = '(' then
      let d := r1.takeWhile Char.isDigit
      if d = [] then none
      else
        match matchCI "reviews".data ((r1.dropWhile Char.isDigit).dropWhile isJsSpace) with
        | some (')' :: rest) => some (" from ".data ++ d ++ " reviews".data, rest)
        | _ => none
    else none
  | [] => none

/-- Step 4 matcher, `/type\s+book\b/gi`, replacement `say "book"`. -/
def tryTypeBook (t : List Char) : Option (List Char × List Char) :=
  match matchCI "type".data t with
  | none => none
  | some r1 =>
    match r1 with
    | c :: _ =>
      if isJsSpace c then
        match matchCI "book".data (r1.dropWhile isJsSpace) with
        | some [] => some ("say \"book\"".data, [])
        | some (d :: rest) =>
          if isWordChar d then none else some ("say \"book\"".data, d :: rest)
        | none => none
      else none
    | [] => none

/-- Step 5 matcher, `/[•\-]\s+/g → ". "`. -/
def tryBullet : List Char → Option (List Char × List Char)
  | c :: d :: cs =>
    if c = bulletChar ∨ c = '-' then
      if isJsSpace d then some (". ".data, (d :: cs).dropWhile isJsSpace)
      else none
    else none
  | [_] => none
  | [] => none

/-- The `Extended_Pictographic` property ranges (Unicode emoji-data) matched
by step 6's `/[\p{Extended_Pictographic}️]/gu`. -/
def pictoRanges : List (Nat × Nat) :=
  [(0xA9, 0xA9), (0xAE, 0xAE), (0x203C, 0x203C), (0x2049, 0x2049),
   (0x2122, 0x2122), (0x2139, 0x2139), (0x2194, 0x2199), (0x21A9, 0x21AA),
   (0x231A, 0x231B), (0x2328, 0x2328), (0x2388, 0x2388), (0x23CF, 0x23CF),
   (0x23E9, 0x23F3), (0x23F8, 0x23FA), (0x24C2, 0x24C2), (0x25AA, 0x25AB),
   (0x25B6, 0x25B6), (0x25C0, 0x25C0), (0x25FB, 0x25FE), (0x2600, 0x2605),
   (0x2607, 0x2612), (0x2614, 0x2685), (0x2690, 0x2705), (0x2708, 0x2712),
   (0x2714, 0x2714), (0x2716, 0x2716), (0x271D, 0x271D), (0x2721, 0x2721),
   (0x2728, 0x2728), (0x2733, 0x2734), (0x2744, 0x2744), (0x2747, 0x2747),
   (0x274C, 0x274C), (0x274E, 0x274E), (0x2753, 0x2755), (0x2757, 0x2757),
   (0x2763, 0x2767), (0x2795, 0x2797), (0x27A1, 0x27A1), (0x27B0, 0x27B0),
   (0x27BF, 0x27BF), (0x2934, 0x2935), (0x2B05, 0x2B07), (0x2B1B, 0x2B1C),
   (0x2B50, 0x2B50), (0x2B55, 0x2B55), (0x3030, 0x3030), (0x303D, 0x303D),
   (0x3297, 0x3297), (0x3299, 0x3299), (0x1F000, 0x1F0FF), (0x1F10D, 0x1F10F),
   (0x1F12F, 0x1F12F), (0x1F16C, 0x1F171), (0x1F17E, 0x1F17F), (0x1F18E, 0x1F18E),
   (0x1F191, 0x1F19A), (0x1F1AD, 0x1F1E5), (0x1F201, 0x1F20F), (0x1F21A, 0x1F21A),
   (0x1F22F, 0x1F22F), (0x1F232, 0x1F23A), (0x1F23C, 0x1F23F), (0x1F249, 0x1F3FA),
   (0x1F400, 0x1F53D), (0x1F546, 0x1F64F), (0x1F680, 0x1F6FF), (0x1F774, 0x1F77F),
   (0x1F7D5, 0x1F7FF), (0x1F80C, 0x1F80F), (0x1F848, 0x1F84F), (0x1F85A, 0x1F85F),
   (0x1F888, 0x1F88F), (0x1F8AE, 0x1F8FF), (0x1F90C, 0x1F93A), (0x1F93C, 0x1F945),
   (0x1F947, 0x1FAFF), (0x1FC00, 0x1FFFD)]

def isPicto (c : Char) : Bool :=
  c.toNat == 0xFE0F ||
  pictoRanges.any (fun r => decide (r.1 ≤ c.toNat) && decide (c.toNat ≤ r.2))

/-- Step 6, `/[\p{Extended_Pictographic}️]/gu → ""` (the `try` branch of
the source; the `catch` fallback is dead code in any engine supporting
Unicode property escapes). -/
def stripPicto (t : List Char) : List Char :=
  t.filter (fun c => !(isPicto c))

/-- Step 7 matcher, `/!+/g → "."`: a maximal run of exclamation marks is
replaced by a single period. -/
def tryExcl (t : List Char) : Option (List Char × List Char) :=
  match t with
  | c :: cs => if c = '!' then some (['.'], cs.dropWhile (fun x => x = '!')) else none
  | [] => none

/-- Step 8 matcher, `/\s{2,}/g → " "`: a run of two or more whitespace
characters collapses to a single space (a lone whitespace character is
left unchanged). -/
def tryWs2 : List Char → Option (List Char × List Char)
  | a :: b :: cs =>
    if isJsSpace a then
      if isJsSpace b then some ([' '], (b :: cs).dropWhile isJsSpace)
      else none
    else none
  | [_] => none
  | [] => none

/-- JavaScript `String.prototype.trim`: drop whitespace from both ends. -/
def trimList (t : List Char) : List Char :=
  (((t.dropWhile isJsSpace).reverse.dropWhile isJsSpace)).reverse

/-- Test `/[.!?]$/`: does the text end in terminal punctuation? -/
def endsTerminalB (t : List Char) : Bool :=
  match t.getLast? with
  | some c => c == '.' || c == '!' || c == '?'
  | none => false

/-- Steps 1–8 of `normalizeForTTS` (everything before the final
append-a-period step). -/
def preTerminal (t : List Char) : List Char :=
  trimList
    (scanAll tryWs2
      (scanAll tryExcl
        (stripPicto
          (scanAll tryBullet
            (scanAll tryTypeBook
              (scanFirst tryReviews
                (scanFirst tryRated
                  (iconReplace (stripMarkdown t)))))))))

/-- The whole pipeline on the character list of a (truthy) input. -/
def normalizeList (t : List Char) : List Char :=
  let u := preTerminal t
  if endsTerminalB u then u else u ++ ['.']

/-- Function `normalizeForTTS(raw)` of server.js on a string-or-null input: `none`
models `null`/`undefined`; the empty string is falsy, so both short-circuit
to the empty result at the `if (!raw) return ""` guard. -/
def normalizeForTTS (raw : Option String) : String :=
  match raw with
  | none => ""
  | some s => if s = "" then "" else String.mk (normalizeList s.data)

end ServerJs

/-! ## Model of JSON values and of the `/tts` POST handler (server.js) -/

/-- A JSON value as it can appear in the parsed request body.  Numbers are
modelled by integers (the claims only involve integral numbers); a JSON
object is modelled opaquely by `vObj`, whose JavaScript string coercion
is the fixed text produced by `String({...})`. -/
inductive JsValue where
  | vNull
  | vBool (b : Bool)
  | vNum (n : Int)
  | vStr (s : String)
  | vObj
deriving DecidableEq

/-- JavaScript truthiness of a `JsValue`. -/
def jsTruthy : JsValue → Bool
  | .vNull => false
  | .vBool b => b
  | .vNum n => !(n == 0)
  | .vStr s => !(s == "")
  | .vObj => true

/-- Is the value a JSON string? -/
def jsIsString : JsValue → Bool
  | .vStr _ => true
  | _ => false

/-- The `String(v)` coercion for the modelled values. -/
def jsToString : JsValue → String
  | .vNull => "null"
  | .vBool true => "true"
  | .vBool false => "false"
  | .vNum n => toString n
  | .vStr s => s
  | .vObj => "[object Object]"

namespace ServerJs

/-- Function `normalizeForTTS(text)` applied to the raw JSON value taken from the
request body: the `if (!raw) return ""` guard tests truthiness, and a
truthy value is coerced by `String(raw)` before the pipeline runs. -/
def normalizeForTTSJs (v : JsValue) : String :=
  if jsTruthy v then String.mk (normalizeList (jsToString v).data) else ""

/-- The synchronous part of the POST `/tts` handler, up to the point where
the outbound provider request is (or is not) issued:
`respond400 msg` models `res.status(400).json({ error: msg })`, and
`providerRequest txt` models the `axios.post` call whose JSON body is
`{ text: txt }`. -/
inductive HandlerStep where
  | respond400 (errorMessage : String)
  | providerRequest (text : String)
deriving DecidableEq

/-- Lines `let { text } = req.body || {}; if (!text) return res.status(400)...;
text = normalizeForTTS(text); await axios.post(..., { text }, ...)`.
The argument is the `text` field of the request body (`none` = absent). -/
def postTtsHandler (textField : Option JsValue) : HandlerStep :=
  match textField with
  | none => .respond400 "Text input is required."
  | some v =>
    if jsTruthy v then .providerRequest (normalizeForTTSJs v)
    else .respond400 "Text input is required."

/-! ## Model of the streaming relay's outcome (server.js lines 72–103) -/

/-- How the provider's body stream ends once a streamed response began. -/
inductive StreamEnd where
  | normal
  | errorAfter (cause : String)

/-- The provider's observable behaviour for one request: either the
`axios.post` promise rejects before any streamed response exists
(connection refused, non-2xx status — axios rejects non-2xx by default —
or timeout), or a streamed response with the given `content-type` header
delivers the given data chunks and then ends. -/
inductive ProviderBehavior where
  | failBefore (cause : String)
  | stream (contentType : Option String) (chunks : List (List Nat)) (ending : StreamEnd)

/-- The outcome observed by the caller:
`errorJson status body` models `res.status(status).json({ error: body })`;
`emptyStatus status` models `res.status(status).end()` with no body;
`streamedOk` / `streamedTruncated` model a committed streamed response
that ends normally, respectively is torn down by `res.destroy(err)`. -/
inductive RelayOutcome where
  | errorJson (status : Nat) (body : String)
  | emptyStatus (status : Nat)
  | streamedOk (contentType : String) (bytes : List Nat)
  | streamedTruncated (contentType : String) (bytes : List Nat) (cause : String)
deriving DecidableEq

/-- The audio bytes the caller receives under each outcome. -/
def audioBytes : RelayOutcome → List Nat
  | .errorJson _ _ => []
  | .emptyStatus _ => []
  | .streamedOk _ b => b
  | .streamedTruncated _ b _ => b

/-- The structured JSON error body sent to the caller, when any. -/
def structuredErrorBody : RelayOutcome → Option String
  | .errorJson _ b => some b
  | _ => none

/-- The try/catch and stream-error wiring of the handler, as a function of
the provider's behaviour; the second component is the list of
`console.error` log lines.  Response headers are flushed by the first
forwarded chunk, so `headersSent` at the time of a stream error is
`chunks ≠ []`; the `chunks = []` branch is `res.status(502).end()` and the
other is `res.destroy(err)` after the forwarded bytes. -/
def relayRun : ProviderBehavior → RelayOutcome × List String
  | .failBefore cause =>
    (.errorJson 500 "Failed to process text-to-speech.",
     ["Error with Deepgram TTS: " ++ cause])
  | .stream ct chunks .normal =>
    (.streamedOk (ct.getD "audio/mpeg") chunks.flatten, [])
  | .stream ct chunks (.errorAfter cause) =>
    if chunks = [] then (.emptyStatus 502, ["Deepgram stream error: " ++ cause])
    else (.streamedTruncated (ct.getD "audio/mpeg") chunks.flatten cause,
          ["Deepgram stream error: " ++ cause])

/-! ## Startup configuration (server.js line 9) -/

/-- Line 9 of server.js: the provider credential is a hard-coded string
literal; `process.env` is never consulted. -/
def DEEPGRAM_API_KEY : String := "1ed5a7a9fc3732359b2bc702275b3e68ab0fa9a6"

/-- The credential the started process uses, as a function of the process
environment: the source ignores the environment entirely. -/
def startupApiKey (_env : String → Option String) : String :=
  DEEPGRAM_API_KEY

/-- Whether process startup aborts for configuration reasons: the source
contains no credential check at all, so startup never aborts. -/
def startupAborts (_env : String → Option String) : Bool :=
  false

end ServerJs

/-! ## The minimal normalization profile (second server variant, line 99-101) -/

namespace Part000

/-- Matcher for `/\s+/g → " "`: any maximal whitespace run collapses to a
single space. -/
def tryWs1 (t : List Char) : Option (List Char × List Char) :=
  match t with
  | a :: cs => if isJsSpace a then some ([' '], cs.dropWhile isJsSpace) else none
  | [] => none

/-- Replacement `/([a-zA-Z])$/ → "$1."`: the regex matches exactly the last character
when that character is an ASCII letter, and the replacement re-emits it
followed by a period. -/
def endReplace (t : List Char) : List Char :=
  match t.getLast? with
  | some c => if isAsciiLetter c then t ++ ['.'] else t
  | none => t

/-- Function `normalizeForTTS` of the second server file:
`text.trim().replace(/\s+/g, ' ').replace(/([a-zA-Z])$/, '$1.')`. -/
def normalizeForTTS (s : String) : String :=
  String.mk (endReplace (scanAll tryWs1 (ServerJs.trimList s.data)))

/-- Modelled from the spec: the reduced profile as the specification words
it — trim the input, collapse every internal whitespace run to a single
space, and append a period exactly when the resulting text ends in a
letter character.  Whitespace-collapsing is written as an independent
one-pass state machine (`insideRun` records whether the previous
character was whitespace), to be compared with the regex chain embedded
from the source. -/
def collapseGo : Bool → List Char → List Char
  | _, [] => []
  | insideRun, c :: cs =>
    if isJsSpace c then
      if insideRun then collapseGo true cs else ' ' :: collapseGo true cs
    else c :: collapseGo false cs

/-- Modelled from the spec (see `collapseGo`). -/
def minimalProfileSpec (s : String) : String :=
  let u := collapseGo false (ServerJs.trimList s.data)
  match u.reverse with
  | c :: _ => if isAsciiLetter c then String.mk (u ++ ['.']) else String.mk u
  | [] => String.mk u

end Part000

/-! ## Generic lemmas about the scanners -/

theorem length_dropWhile_le (p : Char → Bool) (l : List Char) :
    (l.dropWhile p).length ≤ l.length := by
  induction l with
  | nil => simp
  | cons c cs ih =>
    rw [List.dropWhile_cons]
    split
    · exact le_trans ih (Nat.le_succ _)
    · exact le_refl _

theorem mem_of_mem_dropWhile {p : Char → Bool} {l : List Char} {a : Char}
    (h : a ∈ l.dropWhile p) : a ∈ l := by
  induction l with
  | nil => simp at h
  | cons c cs ih =>
    rw [List.dropWhile_cons] at h
    split at h
    · exact List.mem_cons_of_mem _ (ih h)
    · exact h

theorem dropWhile_head_false {p : Char → Bool} :
    ∀ {l : List Char} {c : Char} {r : List Char},
      l.dropWhile p = c :: r → p c = false := by
  intro l
  induction l with
  | nil => intro c r h; simp at h
  | cons a as ih =>
    intro c r h
    rw [List.dropWhile_cons] at h
    split at h
    · exact ih h
    · next hpa => cases h; exact Bool.eq_false_iff.mpr hpa

theorem scanAllF_of_noMatch (f : List Char → Option (List Char × List Char)) :
    ∀ (t : List Char) (n : Nat), noMatchB f t = true → scanAllF f n t = t := by
  intro t
  induction t with
  | nil => intro n _; cases n <;> rfl
  | cons c cs ih =>
    intro n h
    rw [noMatchB, Bool.and_eq_true] at h
    have h1 : f (c :: cs) = none := Option.isNone_iff_eq_none.mp h.1
    cases n with
    | zero => rfl
    | succ m =>
      rw [scanAllF, h1]
      exact congrArg (c :: ·) (ih m h.2)

theorem scanAll_of_noMatch (f : List Char → Option (List Char × List Char))
    (t : List Char) (h : noMatchB f t = true) : scanAll f t = t :=
  scanAllF_of_noMatch f t t.length h

theorem scanFirst_of_noMatch (f : List Char → Option (List Char × List Char)) :
    ∀ t : List Char, noMatchB f t = true → scanFirst f t = t := by
  intro t
  induction t with
  | nil => intro _; rfl
  | cons c cs ih =>
    intro h
    rw [noMatchB, Bool.and_eq_true] at h
    have h1 : f (c :: cs) = none := Option.isNone_iff_eq_none.mp h.1
    rw [scanFirst, h1]
    exact congrArg (c :: ·) (ih h.2)

theorem noMatchB_of_head (f : List Char → Option (List Char × List Char))
    (p : Char → Prop) (hnil : f [] = none)
    (hhd : ∀ c cs, p c → f (c :: cs) = none) :
    ∀ t : List Char, (∀ c ∈ t, p c) → noMatchB f t = true := by
  intro t
  induction t with
  | nil => intro _; simp [noMatchB, hnil]
  | cons c cs ih =>
    intro h
    rw [noMatchB, Bool.and_eq_true]
    refine ⟨?_, ih fun d hd => h d (List.mem_cons_of_mem _ hd)⟩
    rw [hhd c cs (h c (List.mem_cons_self c cs))]
    rfl

/-! ## Head-failure lemmas for the individual matchers -/

theorem matchCI_cons_none {p : Char} {ps : List Char} {c : Char} {cs : List Char}
    (h : lowerAscii c ≠ p) : matchCI (p :: ps) (c :: cs) = none := by
  rw [matchCI, if_neg h]

theorem tryLit_nil_none (pat repl : List Char) : tryLit pat repl [] = none := by
  rw [tryLit, if_neg]
  rintro ⟨hne, hpre⟩
  cases pat with
  | nil => exact hne rfl
  | cons p ps => simp [List.isPrefixOf] at hpre

theorem tryLit_cons_none {p : Char} {ps repl : List Char} {c : Char} {cs : List Char}
    (h : c ≠ p) : tryLit (p :: ps) repl (c :: cs) = none := by
  rw [tryLit, if_neg]
  rintro ⟨-, hpre⟩
  rw [List.isPrefixOf, Bool.and_eq_true, beq_iff_eq] at hpre
  exact h hpre.1.symm

theorem replaceLit_id (p : Char) (ps repl : List Char) (t : List Char)
    (h : ∀ c ∈ t, c ≠ p) : replaceLit (p :: ps) repl t = t :=
  scanAll_of_noMatch _ _
    (noMatchB_of_head _ (fun c => c ≠ p) (tryLit_nil_none _ _)
      (fun _ _ hc => tryLit_cons_none hc) t h)

theorem tryRated_cons_none {c : Char} {cs : List Char} (h : lowerAscii c ≠ 'r') :
    ServerJs.tryRated (c :: cs) = none := by
  rw [ServerJs.tryRated,
    show ("rated".data : List Char) = 'r' :: "ated".data from rfl,
    matchCI_cons_none h]

theorem tryReviews_cons_none {c : Char} {cs : List Char} (h : c ≠ '(') :
    ServerJs.tryReviews (c :: cs) = none := by
  rw [ServerJs.tryReviews, if_neg h]

theorem tryTypeBook_cons_none {c : Char} {cs : List Char} (h : lowerAscii c ≠ 't') :
    ServerJs.tryTypeBook (c :: cs) = none := by
  rw [ServerJs.tryTypeBook,
    show ("type".data : List Char) = 't' :: "ype".data from rfl,
    matchCI_cons_none h]

theorem tryBullet_cons_none {c : Char} {cs : List Char}
    (h : ¬(c = ServerJs.bulletChar ∨ c = '-')) :
    ServerJs.tryBullet (c :: cs) = none := by
  cases cs with
  | nil => rfl
  | cons d cs2 => rw [ServerJs.tryBullet, if_neg h]

theorem tryExcl_cons_none {c : Char} {cs : List Char} (h : c ≠ '!') :
    ServerJs.tryExcl (c :: cs) = none := by
  rw [ServerJs.tryExcl, if_neg h]

theorem tryRated_nil_none : ServerJs.tryRated [] = none := rfl

theorem tryReviews_nil_none : ServerJs.tryReviews [] = none := rfl

theorem tryTypeBook_nil_none : ServerJs.tryTypeBook [] = none := rfl

theorem tryBullet_nil_none : ServerJs.tryBullet [] = none := rfl

theorem tryExcl_nil_none : ServerJs.tryExcl [] = none := rfl

theorem tryWs2_nil_none : ServerJs.tryWs2 [] = none := rfl

theorem tryWs2_singleton_none (a : Char) : ServerJs.tryWs2 [a] = none := rfl

theorem tryWs2_cons₂_none {a b : Char} {cs : List Char}
    (h : ¬(isJsSpace a = true ∧ isJsSpace b = true)) :
    ServerJs.tryWs2 (a :: b :: cs) = none := by
  rw [ServerJs.tryWs2]
  by_cases ha : isJsSpace a = true
  · rw [if_pos ha, if_neg fun hb => h ⟨ha, hb⟩]
  · rw [if_neg ha]

theorem tryWs2_some {t repl rest : List Char}
    (h : ServerJs.tryWs2 t = some (repl, rest)) :
    repl = [' '] ∧ ∀ c ∈ rest, c ∈ t := by
  match t with
  | [] => cases h
  | [a] => cases h
  | a :: b :: cs =>
    rw [ServerJs.tryWs2] at h
    by_cases ha : isJsSpace a = true
    · rw [if_pos ha] at h
      by_cases hb : isJsSpace b = true
      · rw [if_pos hb] at h
        obtain ⟨rfl, rfl⟩ := Prod.mk.injEq .. ▸ Option.some.injEq .. ▸ h
        exact ⟨rfl, fun c hc =>
          List.mem_cons_of_mem _ (mem_of_mem_dropWhile hc)⟩
      · rw [if_neg hb] at h; cases h
    · rw [if_neg ha] at h; cases h

/-! ## Facts about JavaScript whitespace characters -/

theorem isJsSpace_toNat {c : Char} (h : isJsSpace c = true) :
    c.toNat = 9 ∨ c.toNat = 10 ∨ c.toNat = 11 ∨ c.toNat = 12 ∨ c.toNat = 13 ∨
    c.toNat = 32 ∨ c.toNat = 0xA0 ∨ c.toNat = 0x1680 ∨
    (0x2000 ≤ c.toNat ∧ c.toNat ≤ 0x200A) ∨
    c.toNat = 0x2028 ∨ c.toNat = 0x2029 ∨ c.toNat = 0x202F ∨
    c.toNat = 0x205F ∨ c.toNat = 0x3000 ∨ c.toNat = 0xFEFF := by
  simp only [isJsSpace, Bool.or_eq_true, beq_iff_eq, Bool.and_eq_true,
    decide_eq_true_eq] at h
  omega

theorem lowerAscii_of_ws {c : Char} (h : isJsSpace c = true) : lowerAscii c = c := by
  have hn := isJsSpace_toNat h
  rw [lowerAscii, if_neg]
  omega

theorem ws_ne_of_not_ws {c k : Char} (h : isJsSpace c = true)
    (hk : isJsSpace k = false) : c ≠ k := by
  rintro rfl
  rw [h] at hk
  cases hk

theorem ws_not_picto {c : Char} (h : isJsSpace c = true) :
    ServerJs.isPicto c = false := by
  have hn := isJsSpace_toNat h
  simp only [ServerJs.isPicto, ServerJs.pictoRanges, List.any_cons, List.any_nil,
    Bool.or_eq_false_iff, Bool.and_eq_false_iff, beq_eq_false_iff_ne, ne_eq,
    decide_eq_false_iff_not, not_le, and_true]
  omega

theorem ws_not_md {c : Char} (h : isJsSpace c = true) :
    (!ServerJs.mdChars.contains c) = true := by
  have hn := isJsSpace_toNat h
  have h1 : c ≠ '*' := by rintro rfl; simp at hn
  have h2 : c ≠ '_' := by rintro rfl; simp at hn
  have h3 : c ≠ Char.ofNat 0x60 := by rintro rfl; simp at hn
  have h4 : c ≠ '~' := by rintro rfl; simp at hn
  simp [ServerJs.mdChars, h1, h2, h3, h4]

/-! ## Lemmas about `trimList` -/

theorem trimList_head_not_ws {t : List Char} {c : Char} {r : List Char}
    (h : ServerJs.trimList t = c :: r) : isJsSpace c = false := by
  rw [ServerJs.trimList] at h
  set u := t.dropWhile isJsSpace with hu
  set v := u.reverse.dropWhile isJsSpace with hv
  have hvne : v ≠ [] := by
    intro hnil
    rw [hnil] at h
    simp at h
  have hw : v.reverse.head? = some c := by rw [h]; rfl
  rw [List.head?_reverse] at hw
  have hsplit := List.takeWhile_append_dropWhile isJsSpace u.reverse
  have hlast : v.getLast? = u.reverse.getLast? := by
    conv_rhs => rw [← hsplit]
    rw [List.getLast?_append_of_ne_nil _ hvne]
  rw [hlast, List.getLast?_reverse] at hw
  cases hu2 : u with
  | nil => rw [hu2] at hw; simp at hw
  | cons d ds =>
    rw [hu2] at hw
    have hd : isJsSpace d = false := dropWhile_head_false hu2
    simp at hw
    rw [← hw]
    exact hd

theorem trimList_getLast_not_ws {t : List Char} {c : Char}
    (h : (ServerJs.trimList t).getLast? = some c) : isJsSpace c = false := by
  rw [ServerJs.trimList, List.getLast?_reverse] at h
  cases hv : (t.dropWhile isJsSpace).reverse.dropWhile isJsSpace with
  | nil => rw [hv] at h; simp at h
  | cons d ds =>
    rw [hv] at h
    simp at h
    rw [← h]
    exact dropWhile_head_false hv

theorem trimList_eq_self {t : List Char}
    (h1 : ∀ c r, t = c :: r → isJsSpace c = false)
    (h2 : ∀ c, t.getLast? = some c → isJsSpace c = false) :
    ServerJs.trimList t = t := by
  rw [ServerJs.trimList]
  have hd : t.dropWhile isJsSpace = t := by
    cases ht : t with
    | nil => rfl
    | cons c r => rw [List.dropWhile_cons, if_neg (by rw [h1 c r ht]; simp)]
  rw [hd]
  have hr : t.reverse.dropWhile isJsSpace = t.reverse := by
    cases hrt : t.reverse with
    | nil => rfl
    | cons c r =>
      have : t.getLast? = some c := by
        rw [← List.head?_reverse, hrt]
        rfl
      rw [List.dropWhile_cons, if_neg (by rw [h2 c this]; simp)]
  rw [hr, List.reverse_reverse]

theorem trimList_of_all_ws {t : List Char}
    (h : ∀ c ∈ t, isJsSpace c = true) : ServerJs.trimList t = [] := by
  rw [ServerJs.trimList, List.dropWhile_eq_nil_iff.mpr h]
  rfl

/-! ## Identity of the pipeline steps on marker-free text -/

theorem iconReplace_id {t : List Char}
    (h : ∀ c ∈ t, ServerJs.isPicto c = false) : ServerJs.iconReplace t = t := by
  have hne : ∀ p : Char, ServerJs.isPicto p = true → ∀ c ∈ t, c ≠ p := by
    intro p hp c hc
    rintro rfl
    rw [h c hc] at hp
    cases hp
  rw [ServerJs.iconReplace,
    replaceLit_id _ _ _ t (hne _ (by decide)),
    replaceLit_id _ _ _ t (hne _ (by decide)),
    replaceLit_id _ _ _ t (hne _ (by decide)),
    replaceLit_id _ _ _ t (hne _ (by decide)),
    replaceLit_id _ _ _ t (hne _ (by decide)),
    replaceLit_id _ _ _ t (hne _ (by decide)),
    replaceLit_id _ _ _ t (hne _ (by decide))]

theorem stripMarkdown_id {t : List Char}
    (h : ∀ c ∈ t, (!ServerJs.mdChars.contains c) = true) :
    ServerJs.stripMarkdown t = t :=
  List.filter_eq_self.mpr h

theorem stripPicto_id {t : List Char}
    (h : ∀ c ∈ t, ServerJs.isPicto c = false) : ServerJs.stripPicto t = t :=
  List.filter_eq_self.mpr fun c hc => by rw [h c hc]; rfl

theorem noMatchB_tryRated_of_not_r {t : List Char}
    (h : ∀ c ∈ t, lowerAscii c ≠ 'r') : noMatchB ServerJs.tryRated t = true :=
  noMatchB_of_head _ (fun c => lowerAscii c ≠ 'r') tryRated_nil_none
    (fun _ _ hc => tryRated_cons_none hc) t h

theorem noMatchB_tryExcl_of_no_bang {t : List Char}
    (h : ∀ c ∈ t, c ≠ '!') : noMatchB ServerJs.tryExcl t = true :=
  noMatchB_of_head _ (fun c => c ≠ '!') tryExcl_nil_none
    (fun _ _ hc => tryExcl_cons_none hc) t h

/-- The whitespace-collapsing pass turns all-whitespace text into
all-whitespace text (every emitted character is either a space from a
replacement or a character of the input). -/
theorem scanAllF_tryWs2_all_ws :
    ∀ (n : Nat) (t : List Char), (∀ c ∈ t, isJsSpace c = true) →
      ∀ c ∈ scanAllF ServerJs.tryWs2 n t, isJsSpace c = true := by
  intro n
  induction n with
  | zero =>
    intro t h c hc
    cases t with
    | nil => simp [scanAllF] at hc
    | cons a cs => exact h c hc
  | succ m ih =>
    intro t h c hc
    cases t with
    | nil => simp [scanAllF] at hc
    | cons a cs =>
      rw [scanAllF] at hc
      cases htry : ServerJs.tryWs2 (a :: cs) with
      | none =>
        rw [htry] at hc
        rcases List.mem_cons.mp hc with rfl | hc2
        · exact h c (List.mem_cons_self _ _)
        · exact ih cs (fun d hd => h d (List.mem_cons_of_mem _ hd)) c hc2
      | some pr =>
        obtain ⟨repl, rest⟩ := pr
        rw [htry] at hc
        obtain ⟨hrepl, hsub⟩ := tryWs2_some htry
        rcases List.mem_append.mp hc with hc1 | hc2
        · rw [hrepl] at hc1
          have := List.mem_singleton.mp hc1
          subst this
          decide
        · exact ih rest (fun d hd => h d (hsub d hd)) c hc2

/-- Steps 1–8 reduce an all-whitespace input to the empty list: no earlier
step touches whitespace, and the final collapse-and-trim removes it all. -/
theorem preTerminal_of_all_ws {t : List Char}
    (h : ∀ c ∈ t, isJsSpace c = true) : ServerJs.preTerminal t = [] := by
  have hpic : ∀ c ∈ t, ServerJs.isPicto c = false := fun c hc => ws_not_picto (h c hc)
  have e1 : ServerJs.stripMarkdown t = t :=
    stripMarkdown_id fun c hc => ws_not_md (h c hc)
  have e2 : ServerJs.iconReplace t = t := iconReplace_id hpic
  have e3 : scanFirst ServerJs.tryRated t = t :=
    scanFirst_of_noMatch _ _ (noMatchB_tryRated_of_not_r fun c hc => by
      rw [lowerAscii_of_ws (h c hc)]
      exact ws_ne_of_not_ws (h c hc) (by decide))
  have e4 : scanFirst ServerJs.tryReviews t = t :=
    scanFirst_of_noMatch _ _
      (noMatchB_of_head _ (fun c => isJsSpace c = true) tryReviews_nil_none
        (fun c cs hc => tryReviews_cons_none (ws_ne_of_not_ws hc (by decide))) t h)
  have e5 : scanAll ServerJs.tryTypeBook t = t :=
    scanAll_of_noMatch _ _
      (noMatchB_of_head _ (fun c => isJsSpace c = true) tryTypeBook_nil_none
        (fun c cs hc => tryTypeBook_cons_none (by
          rw [lowerAscii_of_ws hc]
          exact ws_ne_of_not_ws hc (by decide))) t h)
  have e6 : scanAll ServerJs.tryBullet t = t :=
    scanAll_of_noMatch _ _
      (noMatchB_of_head _ (fun c => isJsSpace c = true) tryBullet_nil_none
        (fun c cs hc => tryBullet_cons_none (by
          rintro (rfl | rfl)
          · exact absurd hc (by decide)
          · exact absurd hc (by decide))) t h)
  have e7 : ServerJs.stripPicto t = t := stripPicto_id hpic
  have e8 : scanAll ServerJs.tryExcl t = t :=
    scanAll_of_noMatch _ _ (noMatchB_tryExcl_of_no_bang fun c hc =>
      ws_ne_of_not_ws (h c hc) (by decide))
  rw [ServerJs.preTerminal, e1, e2, e3, e4, e5, e6, e7, e8]
  exact trimList_of_all_ws (scanAllF_tryWs2_all_ws t.length t h)

/-- On text that contains none of the replaceable markers, is trimmed, and
already ends in terminal punctuation, the whole pipeline is the identity. -/
theorem normalizeList_id {t : List Char}
    (hmd : ∀ c ∈ t, (!ServerJs.mdChars.contains c) = true)
    (hpic : ∀ c ∈ t, ServerJs.isPicto c = false)
    (hrat : noMatchB ServerJs.tryRated t = true)
    (hrev : noMatchB ServerJs.tryReviews t = true)
    (htb : noMatchB ServerJs.tryTypeBook t = true)
    (hbul : noMatchB ServerJs.tryBullet t = true)
    (hex : ∀ c ∈ t, c ≠ '!')
    (hws2 : noMatchB ServerJs.tryWs2 t = true)
    (hhead : ∀ c r, t = c :: r → isJsSpace c = false)
    (hlast : ∀ c, t.getLast? = some c → isJsSpace c = false)
    (hterm : ServerJs.endsTerminalB t = true) :
    ServerJs.normalizeList t = t := by
  have e1 : ServerJs.stripMarkdown t = t := stripMarkdown_id hmd
  have e2 : ServerJs.iconReplace t = t := iconReplace_id hpic
  have e3 : scanFirst ServerJs.tryRated t = t := scanFirst_of_noMatch _ _ hrat
  have e4 : scanFirst ServerJs.tryReviews t = t := scanFirst_of_noMatch _ _ hrev
  have e5 : scanAll ServerJs.tryTypeBook t = t := scanAll_of_noMatch _ _ htb
  have e6 : scanAll ServerJs.tryBullet t = t := scanAll_of_noMatch _ _ hbul
  have e7 : ServerJs.stripPicto t = t := stripPicto_id hpic
  have e8 : scanAll ServerJs.tryExcl t = t :=
    scanAll_of_noMatch _ _ (noMatchB_tryExcl_of_no_bang hex)
  have e9 : scanAll ServerJs.tryWs2 t = t := scanAll_of_noMatch _ _ hws2
  have e10 : ServerJs.trimList t = t := trimList_eq_self hhead hlast
  have hpre : ServerJs.preTerminal t = t := by
    rw [ServerJs.preTerminal, e1, e2, e3, e4, e5, e6, e7, e8, e9, e10]
  simp only [ServerJs.normalizeList, hpre, hterm, if_true]

theorem preTerminal_head_not_ws {t : List Char} {c : Char} {r : List Char}
    (h : ServerJs.preTerminal t = c :: r) : isJsSpace c = false :=
  trimList_head_not_ws h

theorem normalizeList_head_not_ws {t : List Char} {c : Char} {r : List Char}
    (h : ServerJs.normalizeList t = c :: r) : isJsSpace c = false := by
  simp only [ServerJs.normalizeList] at h
  split at h
  · exact preTerminal_head_not_ws h
  · cases hu : ServerJs.preTerminal t with
    | nil =>
      rw [hu] at h
      simp only [List.nil_append, List.cons.injEq] at h
      rw [← h.1]
      decide
    | cons d ds =>
      rw [hu] at h
      simp only [List.cons_append, List.cons.injEq] at h
      rw [← h.1]
      exact preTerminal_head_not_ws hu

theorem endsTerminal_getLast_not_ws {t : List Char}
    (hterm : ServerJs.endsTerminalB t = true) {c : Char}
    (h : t.getLast? = some c) : isJsSpace c = false := by
  rw [ServerJs.endsTerminalB, h] at hterm
  simp only [Bool.or_eq_true, beq_iff_eq] at hterm
  rcases hterm with (rfl | rfl) | rfl <;> decide

namespace ServerJs

/-- The "settled" predicate of the idempotence property: the text already
ends in terminal punctuation and contains no further replaceable marker —
no markdown emphasis delimiter, no pictographic/icon character, no
exclamation mark, no occurrence of the rating / review-count / type-book /
bullet patterns, and no collapsible (length ≥ 2) whitespace run. -/
def settledB (t : List Char) : Bool :=
  endsTerminalB t &&
  t.all (fun c => !mdChars.contains c) &&
  t.all (fun c => !isPicto c) &&
  t.all (fun c => !(c == '!')) &&
  noMatchB tryRated t &&
  noMatchB tryReviews t &&
  noMatchB tryTypeBook t &&
  noMatchB tryBullet t &&
  noMatchB tryWs2 t

end ServerJs

/-! ## Equivalence of the two whitespace-collapsing implementations -/

theorem collapseGo_true_eq (cs : List Char) :
    Part000.collapseGo true cs = Part000.collapseGo false (cs.dropWhile isJsSpace) := by
  induction cs with
  | nil => rfl
  | cons c cs2 ih =>
    by_cases hc : isJsSpace c = true
    · simp only [Part000.collapseGo, hc, if_true, List.dropWhile_cons, ih]
    · simp only [Part000.collapseGo, hc, if_false, List.dropWhile_cons,
        Bool.false_eq_true]

theorem scanAllF_tryWs1_eq :
    ∀ (n : Nat) (t : List Char), t.length ≤ n →
      scanAllF Part000.tryWs1 n t = Part000.collapseGo false t := by
  intro n
  induction n with
  | zero =>
    intro t h
    have ht : t = [] := List.length_eq_zero.mp (Nat.le_zero.mp h)
    subst ht
    rfl
  | succ m ih =>
    intro t h
    cases t with
    | nil => rfl
    | cons c cs =>
      by_cases hc : isJsSpace c = true
      · have htry : Part000.tryWs1 (c :: cs) = some ([' '], cs.dropWhile isJsSpace) := by
          rw [Part000.tryWs1, if_pos hc]
        have hlen : (cs.dropWhile isJsSpace).length ≤ m :=
          le_trans (length_dropWhile_le _ _) (Nat.le_of_succ_le_succ h)
        rw [scanAllF, htry]
        show [' '] ++ scanAllF Part000.tryWs1 m (cs.dropWhile isJsSpace) = _
        rw [ih _ hlen]
        simp only [Part000.collapseGo, hc, if_true, collapseGo_true_eq]
        rfl
      · have htry : Part000.tryWs1 (c :: cs) = none := by
          rw [Part000.tryWs1, if_neg hc]
        rw [scanAllF, htry, ih cs (Nat.le_of_succ_le_succ h)]
        simp only [Part000.collapseGo, hc, if_false, Bool.false_eq_true]

theorem scanAll_tryWs1_eq (t : List Char) :
    scanAll Part000.tryWs1 t = Part000.collapseGo false t :=
  scanAllF_tryWs1_eq t.length t (le_refl _)

/-! ## The claims -/

/-- C1 counterexample: on the spec's example input the pipeline does NOT
return the spec's expected string — the rating rewrite's replacement
template spells `rated` in lower case, so the capital R of the input is
lost. -/
theorem C1_counterexample :
    ServerJs.normalizeForTTS (some "Rated 4.55/5 (76 reviews)!") ≠
      "Rated 4.55 out of 5 from 76 reviews." := by decide

/-- C1 (amended): for the input `"Rated 4.55/5 (76 reviews)!"`, the full
pipeline returns exactly `"rated 4.55 out of 5 from 76 reviews."` — the
exclamation mark becomes a period, the rating and review-count expressions
are rewritten with the stated spacing, and the text outside the matched
expressions is unchanged except that the matched `Rated` is re-emitted in
lower case by the replacement template. -/
theorem C1_amended_example :
    ServerJs.normalizeForTTS (some "Rated 4.55/5 (76 reviews)!") =
      "rated 4.55 out of 5 from 76 reviews." := by decide

/-- C2 counterexample: the all-whitespace input `" "` is truthy in
JavaScript, passes the `if (!raw)` guard, trims to the empty string, and
then `/[.!?]$/` does not match, so a period IS appended: the result is
`"."`, not `""`. -/
theorem C2_counterexample :
    ServerJs.normalizeForTTS (some " ") ≠ "" := by decide

/-- C2 (amended): an input that is null or the empty string yields the
empty string, while every nonempty all-whitespace input yields `"."` —
it does gain a trailing period, contrary to the claim. -/
theorem C2_amended_empty_null_ws :
    ServerJs.normalizeForTTS none = "" ∧ ServerJs.normalizeForTTS (some "") = "" ∧
    ∀ s : String, s ≠ "" → (∀ c ∈ s.data, isJsSpace c = true) →
      ServerJs.normalizeForTTS (some s) = "." := by
  refine ⟨rfl, rfl, ?_⟩
  intro s hne hws
  rw [ServerJs.normalizeForTTS, if_neg hne]
  have hlist : ServerJs.normalizeList s.data = ['.'] := by
    simp only [ServerJs.normalizeList, preTerminal_of_all_ws hws]
    rfl
  rw [hlist]

/-- C2 witness: the concrete all-whitespace input `" "` yields `"."`. -/
theorem C2_witness : ServerJs.normalizeForTTS (some " ") = "." :=
  C2_amended_empty_null_ws.2.2 " " (by decide) (by decide)

/-- C3: for every non-empty, non-whitespace-only input whose pipeline
result before the final append step does not already end in `.`, `!` or
`?`, the output of `normalizeForTTS` ends in `.`. -/
theorem C3_terminal_period (s : String) (h1 : s ≠ "")
    (_h2 : ¬(∀ c ∈ s.data, isJsSpace c = true))
    (h3 : ServerJs.endsTerminalB (ServerJs.preTerminal s.data) = false) :
    (ServerJs.normalizeForTTS (some s)).data.getLast? = some '.' := by
  rw [ServerJs.normalizeForTTS, if_neg h1]
  simp only [ServerJs.normalizeList, h3, Bool.false_eq_true, if_false]
  exact List.getLast?_concat _

/-- C3 witness at the input `"hello"`. -/
theorem C3_witness :
    (ServerJs.normalizeForTTS (some "hello")).data.getLast? = some '.' :=
  C3_terminal_period "hello" (by decide) (by decide) (by decide)

/-- C4: when the `text` field of the POST `/tts` body is absent or the
empty string, the handler responds 400 with the structured JSON error
body and never issues the outbound provider request. -/
theorem C4_absent_or_empty_text_rejected (tf : Option JsValue)
    (h : tf = none ∨ tf = some (JsValue.vStr "")) :
    ServerJs.postTtsHandler tf =
      ServerJs.HandlerStep.respond400 "Text input is required." ∧
    ∀ txt, ServerJs.postTtsHandler tf ≠ ServerJs.HandlerStep.providerRequest txt := by
  rcases h with rfl | rfl
  · exact ⟨rfl, fun txt hc => by simp [ServerJs.postTtsHandler] at hc⟩
  · refine ⟨by decide, fun txt hc => ?_⟩
    rw [show ServerJs.postTtsHandler (some (JsValue.vStr "")) =
        ServerJs.HandlerStep.respond400 "Text input is required." by decide] at hc
    cases hc

/-- C4 witness: the absent-field case. -/
theorem C4_witness :
    ServerJs.postTtsHandler none =
      ServerJs.HandlerStep.respond400 "Text input is required." ∧
    ∀ txt, ServerJs.postTtsHandler none ≠ ServerJs.HandlerStep.providerRequest txt :=
  C4_absent_or_empty_text_rejected none (Or.inl rfl)

/-- C5: if the provider stream errors after at least one chunk was
forwarded (headers committed by the first write), the caller receives
exactly the forwarded bytes, no structured error body, the outbound
response is destroyed with the cause, and the cause is logged. -/
theorem C5_midstream_failure (ct : Option String) (chunks : List (List Nat))
    (e : String) (h : chunks ≠ []) :
    ServerJs.relayRun
        (ServerJs.ProviderBehavior.stream ct chunks (ServerJs.StreamEnd.errorAfter e)) =
      (ServerJs.RelayOutcome.streamedTruncated (ct.getD "audio/mpeg") chunks.flatten e,
       ["Deepgram stream error: " ++ e]) ∧
    ServerJs.structuredErrorBody
      (ServerJs.relayRun
        (ServerJs.ProviderBehavior.stream ct chunks (ServerJs.StreamEnd.errorAfter e))).1 = none ∧
    ServerJs.audioBytes
      (ServerJs.relayRun
        (ServerJs.ProviderBehavior.stream ct chunks (ServerJs.StreamEnd.errorAfter e))).1 =
      chunks.flatten := by
  have hrun : ServerJs.relayRun
      (ServerJs.ProviderBehavior.stream ct chunks (ServerJs.StreamEnd.errorAfter e)) =
      (ServerJs.RelayOutcome.streamedTruncated (ct.getD "audio/mpeg") chunks.flatten e,
       ["Deepgram stream error: " ++ e]) := by
    rw [ServerJs.relayRun, if_neg h]
  refine ⟨hrun, ?_, ?_⟩
  · rw [hrun]
    rfl
  · rw [hrun]
    rfl


/-- C5 witness: the provider streams the bytes 1, 2, 3 and then errors. -/
theorem C5_witness :
    ([[1, 2, 3]] : List (List Nat)) ≠ [] ∧
    ServerJs.relayRun
        (ServerJs.ProviderBehavior.stream none [[1, 2, 3]]
          (ServerJs.StreamEnd.errorAfter "boom")) =
      (ServerJs.RelayOutcome.streamedTruncated "audio/mpeg" [1, 2, 3] "boom",
       ["Deepgram stream error: " ++ "boom"]) :=
  ⟨by decide, (C5_midstream_failure none [[1, 2, 3]] "boom" (by decide)).1⟩

/-- C6: if the provider call fails before any streamed response exists
(connection refused, non-2xx status, timeout — all of which reject the
`axios.post` promise), the relay answers with status 500 and the
structured JSON error payload, and the caller receives zero audio bytes. -/
theorem C6_prestream_failure (e : String) :
    ServerJs.relayRun (ServerJs.ProviderBehavior.failBefore e) =
      (ServerJs.RelayOutcome.errorJson 500 "Failed to process text-to-speech.",
       ["Error with Deepgram TTS: " ++ e]) ∧
    ServerJs.audioBytes (ServerJs.relayRun (ServerJs.ProviderBehavior.failBefore e)).1 = [] ∧
    ServerJs.structuredErrorBody
      (ServerJs.relayRun (ServerJs.ProviderBehavior.failBefore e)).1 =
      some "Failed to process text-to-speech." :=
  ⟨rfl, rfl, rfl⟩

/-- C7: the full pipeline is idempotent on settled outputs — whenever
`normalizeForTTS x` already ends in terminal punctuation and contains no
further replaceable marker, applying the pipeline again returns it
unchanged. -/
theorem C7_idempotent_on_settled (x : Option String)
    (h : ServerJs.settledB (ServerJs.normalizeForTTS x).data = true) :
    ServerJs.normalizeForTTS (some (ServerJs.normalizeForTTS x)) =
      ServerJs.normalizeForTTS x := by
  match x with
  | none => exact absurd h (by decide)
  | some s =>
    by_cases hse : s = ""
    · rw [hse] at h ⊢
      exact absurd h (by decide)
    · have houter : ServerJs.normalizeForTTS (some s) =
          String.mk (ServerJs.normalizeList s.data) := by
        rw [ServerJs.normalizeForTTS, if_neg hse]
      rw [houter] at h ⊢
      revert h
      generalize hL : ServerJs.normalizeList s.data = L
      intro h
      rw [show (String.mk L).data = L from rfl] at h
      simp only [ServerJs.settledB, Bool.and_eq_true] at h
      obtain ⟨⟨⟨⟨⟨⟨⟨⟨hterm, hmd⟩, hpic⟩, hbang⟩, hrat⟩, hrev⟩, htb⟩, hbul⟩, hws2⟩ := h
      have hmd2 : ∀ c ∈ L, (!ServerJs.mdChars.contains c) = true :=
        List.all_eq_true.mp hmd
      have hpic2 : ∀ c ∈ L, ServerJs.isPicto c = false := by
        intro c hc
        have := List.all_eq_true.mp hpic c hc
        simpa using this
      have hbang2 : ∀ c ∈ L, c ≠ '!' := by
        intro c hc
        have := List.all_eq_true.mp hbang c hc
        simpa using this
      have hhead : ∀ c r, L = c :: r → isJsSpace c = false :=
        fun _ _ hcr => normalizeList_head_not_ws (hL.trans hcr)
      have hlast : ∀ c, L.getLast? = some c → isJsSpace c = false :=
        fun _ hc => endsTerminal_getLast_not_ws hterm hc
      have hid : ServerJs.normalizeList L = L :=
        normalizeList_id hmd2 hpic2 hrat hrev htb hbul hbang2 hws2 hhead hlast hterm
      have hne2 : String.mk L ≠ "" := by
        intro he
        have hnil : L = [] := by
          have := congrArg String.data he
          simpa using this
        rw [hnil] at hterm
        exact absurd hterm (by decide)
      rw [ServerJs.normalizeForTTS, if_neg hne2]
      show String.mk (ServerJs.normalizeList (String.mk L).data) = _
      rw [show (String.mk L).data = L from rfl, hid]

/-- C7 witness: `"hello"` normalizes to the settled text `"hello."`. -/
theorem C7_witness :
    ServerJs.settledB (ServerJs.normalizeForTTS (some "hello")).data = true ∧
    ServerJs.normalizeForTTS (some (ServerJs.normalizeForTTS (some "hello"))) =
      ServerJs.normalizeForTTS (some "hello") :=
  ⟨by decide, C7_idempotent_on_settled (some "hello") (by decide)⟩

/-- C8 (the code, at the claim's failing input): started with an
environment in which no variable is set at all, the process neither
fails nor lacks a credential — the key is the hard-coded literal of
line 9 and no startup check exists, contradicting the claim that the
credential is read from the environment and that its absence is fatal. -/
theorem C8_hardcoded_credential_no_env_check :
    ServerJs.startupApiKey (fun _ => none) =
      "1ed5a7a9fc3732359b2bc702275b3e68ab0fa9a6" ∧
    ServerJs.startupAborts (fun _ => none) = false :=
  ⟨rfl, rfl⟩

/-- C9: the minimal profile embedded from the source (trim, then the
regex chain `replace(/\s+/g, ' ').replace(/([a-zA-Z])$/, '$1.')`)
coincides, on every input, with the specification's description: trim,
collapse every internal whitespace run to a single space, and append a
period exactly when the result ends in a letter character. -/
theorem C9_minimal_profile_matches_spec (s : String) :
    Part000.normalizeForTTS s = Part000.minimalProfileSpec s := by
  simp only [Part000.normalizeForTTS, Part000.minimalProfileSpec, scanAll_tryWs1_eq]
  cases hur : (Part000.collapseGo false (ServerJs.trimList s.data)).reverse with
  | nil =>
    have hu : Part000.collapseGo false (ServerJs.trimList s.data) = [] :=
      List.reverse_eq_nil_iff.mp hur
    simp only [hur, hu]
    rfl
  | cons c r =>
    have hlast : (Part000.collapseGo false (ServerJs.trimList s.data)).getLast? =
        some c := by
      rw [← List.head?_reverse, hur]
      rfl
    simp only [hur, Part000.endReplace, hlast]
    by_cases hc : isAsciiLetter c = true
    · simp only [hc, if_true]
    · simp only [hc, if_false, Bool.false_eq_true]

/-- C10: a truthy non-string `text` value is never rejected with a 400:
the handler issues the provider request, whose text is the `String()`
coercion of the value run through the normalization pipeline. -/
theorem C10_truthy_nonstring_no_reject (v : JsValue) (h1 : jsTruthy v = true)
    (_h2 : jsIsString v = false) :
    ServerJs.postTtsHandler (some v) =
      ServerJs.HandlerStep.providerRequest
        (String.mk (ServerJs.normalizeList (jsToString v).data)) ∧
    ∀ m, ServerJs.postTtsHandler (some v) ≠ ServerJs.HandlerStep.respond400 m := by
  have hrun : ServerJs.postTtsHandler (some v) =
      ServerJs.HandlerStep.providerRequest (ServerJs.normalizeForTTSJs v) := by
    rw [ServerJs.postTtsHandler, if_pos h1]
  have hjs : ServerJs.normalizeForTTSJs v =
      String.mk (ServerJs.normalizeList (jsToString v).data) := by
    rw [ServerJs.normalizeForTTSJs, if_pos h1]
  refine ⟨by rw [hrun, hjs], fun m hc => ?_⟩
  rw [hrun] at hc
  cases hc

/-- C10 witness: the number `5` is truthy and non-string; it is coerced
to `"5"` and normalized to `"5."` for the provider request. -/
theorem C10_witness :
    jsTruthy (JsValue.vNum 5) = true ∧ jsIsString (JsValue.vNum 5) = false ∧
    (ServerJs.postTtsHandler (some (JsValue.vNum 5)) =
      ServerJs.HandlerStep.providerRequest
        (String.mk (ServerJs.normalizeList (jsToString (JsValue.vNum 5)).data)) ∧
     ∀ m, ServerJs.postTtsHandler (some (JsValue.vNum 5)) ≠
        ServerJs.HandlerStep.respond400 m) :=
  ⟨by decide, by decide,
    C10_truthy_nonstring_no_reject (JsValue.vNum 5) (by decide) (by decide)⟩

example : ServerJs.normalizeForTTS (some "Type BOOK to reserve") =
    "say \"book\" to reserve." := by decide

example : ServerJs.normalizeForTTS (some "hello") = "hello." := by decide

example : Part000.normalizeForTTS "  hi   there " = "hi there." := by decide

example : Part000.minimalProfileSpec "  hi   there " = "hi there." := by decide

example : Part000.normalizeForTTS "abc" = "abc." := by decide

example : Part000.normalizeForTTS "abc5" = "abc5" := by decide
